import Mathlib

/-!
# Verification of the streaming chat session engine (`src/frontend/src/store/chatStore.ts`)

This file is a shallow embedding of the session-state engine of the chat
client: the Zustand store state, the SSE line dispatcher inside
`sendMessage`, the post-stream finalization, the background reconciliation
fetch, the pagination loader `loadMoreMessages`, and the synchronous reset
performed by `setActiveChat`.

Conventions of the embedding:
* JS `string` is `String`, absent/`undefined`/`null` fields are `Option _`.
* JS truthiness tests on strings (`if (toolName)`, `if (chatId && newTitle)`,
  `parsed.content ? _ : _`, `state.streamingMessage || errorText`,
  `oldestMsg?.id ? _ : _`) are modelled by `jsTruthy : Option String → Bool`
  (false exactly on `undefined`/`null`/`""`).
* JS nullish coalescing `a ?? b` is `coalesce` (falls through only on
  `undefined`/`null`, not on `""`).
* Asynchronous fetches are split in two pure phases: a `...Begin` function
  (the synchronous code up to the `await fetch`) and a `...Complete`
  function (the code run when the response arrives), applied to whatever
  store state is current at completion time.  A failed / non-ok fetch is the
  `none` response.
-/

namespace ChatStore

/-- Embeds the union type `ToolStatus` of started, completed and failed
    (`src/frontend/src/types/index.ts:25`). -/
inductive ToolStatus where
  | started
  | completed
  | failed
deriving DecidableEq, Repr

/-- Embeds `interface ToolCall` with fields `name`, `status` and optional
    `citations` (`src/frontend/src/types/index.ts:27-31`). -/
structure ToolCall where
  name : String
  status : ToolStatus
  citations : Option (List String)
deriving DecidableEq, Repr

/-- Embeds `interface Message` (`src/frontend/src/types/index.ts:33-40`).
    The optional `tool_calls?` is modelled as a plain list (absent = `[]`,
    which is how the store reads it: `m.tool_calls || []`); `attachments`
    plays no role in the store logic verified here and is omitted. -/
structure Message where
  id : String
  role : String
  content : String
  tool_calls : List ToolCall
  created_at : String
deriving DecidableEq, Repr

/-- Embeds `interface Chat` (`src/frontend/src/types/index.ts:9-14`),
    restricted to the fields the store logic reads (`id`, `title`). -/
structure Chat where
  id : String
  title : String
deriving DecidableEq, Repr

/-- The Zustand store fields of `ChatState` that the session engine mutates
    (`chatStore.ts:6-14`, initial values `chatStore.ts:37-44`). -/
structure StoreState where
  chats : List Chat
  activeChatId : Option String
  messages : List Message
  isLoading : Bool
  streamingMessage : String
  activeTools : List ToolCall
  hasMoreMessages : Bool
  isLoadingMore : Bool
deriving DecidableEq, Repr

/-- JS truthiness of a possibly-absent string: `undefined`, `null` and `""`
    are falsy, every other string is truthy. -/
def jsTruthy : Option String → Bool
  | none => false
  | some s => s ≠ ""

/-- JS nullish coalescing `a ?? b`: `b` only when `a` is `undefined`/`null`. -/
def coalesce (a b : Option String) : Option String :=
  match a with
  | none => b
  | some s => some s

/-- The local state of one `sendMessage` stream-consumption loop: the store
    plus the loop-local variables `hasReceivedFirstToken` and
    `pendingToolMeta` (`chatStore.ts:186-187`).  `pendingToolMeta` is a JS
    object `Record<string, { citations?: string[] }>`, modelled as an
    association list with overwrite-on-insert. -/
structure StreamState where
  store : StoreState
  hasReceivedFirstToken : Bool
  pendingToolMeta : List (String × Option (List String))
deriving DecidableEq, Repr

/-- JS object property write `pendingToolMeta[k] = {citations := v}`:
    the previous binding of `k`, if any, is overwritten. -/
def metaInsert (k : String) (v : Option (List String))
    (m : List (String × Option (List String))) : List (String × Option (List String)) :=
  (k, v) :: m.filter (fun p => p.1 ≠ k)

/-- JS read `pendingToolMeta[String(toolName)] || {}` followed by spreading
    `...meta` into a new tool entry: yields the stashed citations if the key
    is bound to some, `none` otherwise. -/
def metaCitations (k : String) (m : List (String × Option (List String))) :
    Option (List String) :=
  (m.lookup k).join

/-- The result of `JSON.parse(data)` on a frame payload, as far as the
    dispatcher reads it (`chatStore.ts:209-277`): the `type` discriminator
    and the fields of each branch.  `unknown` is a successfully parsed JSON
    value whose `type` matches none of the seven branches (no branch runs). -/
inductive Parsed where
  | token (content : Option String)
  | tool_start (name tool : Option String)
  | tool_end (name tool : Option String)
  | source (name tool : Option String) (citations : Option (List String))
  | title_update (chat_id title : Option String)
  | error (content : Option String)
  | done
  | unknown
deriving DecidableEq, Repr

/-- One line of a stream chunk after the decoding steps of
    `chatStore.ts:197-209`, classified:
    * `notData` — after `trim()` the line does not start with `data:`
      (`continue`, line 199);
    * `emptyPayload` — the payload after stripping `/^data:\s?/` is empty
      (`continue`, line 202);
    * `doneSentinel` — the payload is the literal string `[DONE]` (line 203);
    * `event e` — `JSON.parse(payload)` succeeded, yielding `e` (line 209);
    * `raw d` — `JSON.parse(payload)` threw; `d` is the payload text
      (the `catch` branch, lines 278-284). -/
inductive FrameLine where
  | notData
  | emptyPayload
  | doneSentinel
  | event (e : Parsed)
  | raw (d : String)
deriving DecidableEq, Repr

/-- The effect of one successfully parsed event on the stream state
    (`chatStore.ts:211-277`).  The returned `Bool` is true when the branch
    executes `break` (the `error` and `done` branches, which also clear the
    carry-over `buffer`). -/
def dispatchParsed (e : Parsed) (ss : StreamState) : StreamState × Bool :=
  match e with
  | .token content =>
      let ss := if ss.hasReceivedFirstToken then ss
        else { ss with hasReceivedFirstToken := true,
                       store := { ss.store with isLoading := false } }
      ({ ss with store := { ss.store with
          streamingMessage := ss.store.streamingMessage ++ content.getD "" } }, false)
  | .tool_start name tool =>
      let toolName := coalesce name tool
      if jsTruthy toolName then
        let n := toolName.getD ""
        ({ ss with store := { ss.store with
            activeTools := ss.store.activeTools ++
              [{ name := n, status := .started,
                 citations := metaCitations n ss.pendingToolMeta }] } }, false)
      else (ss, false)
  | .tool_end name tool =>
      let toolName := coalesce name tool
      if jsTruthy toolName then
        let n := toolName.getD ""
        ({ ss with store := { ss.store with
            activeTools := ss.store.activeTools.map (fun t =>
              if t.name = n then { t with status := .completed } else t) } }, false)
      else (ss, false)
  | .source name tool citations =>
      let n := (coalesce (coalesce name tool) (some "Source")).getD ""
      let ss := { ss with pendingToolMeta := metaInsert n citations ss.pendingToolMeta }
      ({ ss with store := { ss.store with
          activeTools := ss.store.activeTools.map (fun t =>
            if t.name = n then { t with citations := citations } else t) } }, false)
  | .title_update chat_id title =>
      if jsTruthy chat_id && jsTruthy title then
        let cid := chat_id.getD ""
        let newTitle := title.getD ""
        ({ ss with store := { ss.store with
            chats := ss.store.chats.map (fun c =>
              if c.id = cid then { c with title := newTitle } else c) } }, false)
      else (ss, false)
  | .error content =>
      let ss := if ss.hasReceivedFirstToken then ss
        else { ss with store := { ss.store with isLoading := false } }
      let errorText := match content with
        | some c => if c = "" then "Something went wrong." else c
        | none => "Something went wrong."
      ({ ss with store := { ss.store with
          streamingMessage :=
            if ss.store.streamingMessage = "" then errorText
            else ss.store.streamingMessage } }, true)
  | .done => (ss, true)
  | .unknown => (ss, false)

/-- The effect of one classified line on the stream state.  The returned
    `Bool` is true when processing of the current chunk stops (`break`):
    the `[DONE]` sentinel (line 203-206) and the breaking event branches.
    A `raw` line is the `catch` branch (lines 278-284): the payload text is
    appended to `streamingMessage` and, on the first such line before any
    token, `hasReceivedFirstToken` is set and `isLoading` cleared. -/
def handleLine (l : FrameLine) (ss : StreamState) : StreamState × Bool :=
  match l with
  | .notData => (ss, false)
  | .emptyPayload => (ss, false)
  | .doneSentinel => (ss, true)
  | .event e => dispatchParsed e ss
  | .raw d =>
      let ss := if ss.hasReceivedFirstToken then ss
        else { ss with hasReceivedFirstToken := true,
                       store := { ss.store with isLoading := false } }
      ({ ss with store := { ss.store with
          streamingMessage := ss.store.streamingMessage ++ d } }, false)

/-- Whether a line makes the inner `for` loop `break`.  Independent of the
    state (see `handleLine_breaks`). -/
def breaksChunk : FrameLine → Bool
  | .doneSentinel => true
  | .event (.error _) => true
  | .event .done => true
  | _ => false

/-- The inner `for (const rawLine of lines)` loop (`chatStore.ts:197-285`):
    lines of one chunk are processed in order until a breaking line; the
    lines after the break are never handled.  Returns the state and whether
    a break occurred (in the source a break also clears the carry-over
    `buffer`, so the trailing partial line of the chunk is discarded too). -/
def processLines : List FrameLine → StreamState → StreamState × Bool
  | [], ss => (ss, false)
  | l :: ls, ss =>
      let r := handleLine l ss
      if r.2 then (r.1, true) else processLines ls r.1

/-- The outer `while (true)` read loop (`chatStore.ts:189-286`) over the
    chunks of the stream, each chunk already split into its complete lines.
    Note that a `break` only leaves the inner `for` loop: the `while` loop
    continues with the next chunk of the stream. -/
def processChunks : List (List FrameLine) → StreamState → StreamState
  | [], ss => ss
  | c :: cs, ss => processChunks cs (processLines c ss).1

/-- The synchronous prefix of `sendMessage` (`chatStore.ts:105-125`): clear
    the streaming buffer and tool list, raise `isLoading`, append the
    optimistic user message, and initialise the loop-local variables
    (`chatStore.ts:186-187`). -/
def startTurn (st : StoreState) (userMsg : Message) : StreamState :=
  { store := { st with
      isLoading := true, streamingMessage := "", activeTools := [],
      messages := st.messages ++ [userMsg] },
    hasReceivedFirstToken := false,
    pendingToolMeta := [] }

/-- The post-loop finalization of `sendMessage` (`chatStore.ts:288-304`):
    clear `isLoading`, append the synthetic assistant message built from the
    final `streamingMessage` and `activeTools`, then reset both.  `aiId` and
    `aiCreatedAt` stand for the locally generated `(Date.now()+1).toString()`
    and `new Date().toISOString()`. -/
def finishTurn (ss : StreamState) (aiId aiCreatedAt : String) : StoreState :=
  let st := { ss.store with isLoading := false }
  let aiMsg : Message :=
    { id := aiId, role := "assistant", content := st.streamingMessage,
      tool_calls := st.activeTools, created_at := aiCreatedAt }
  { st with messages := st.messages ++ [aiMsg],
            streamingMessage := "", activeTools := [] }

/-- The decoded JSON body of a messages-page response:
    `{ messages: Message[], has_more?: bool }` (`chatStore.ts:360-363`).
    The store reads it as `data.messages ?? data` and
    `data.has_more ?? msgs.length >= 10`. -/
structure PageResponse where
  messages : List Message
  has_more : Option Bool
deriving DecidableEq, Repr

/-- The first-occurrence-wins dedup-by-id filter used by `setActiveChat` and
    by the post-turn refresh (`chatStore.ts:69-71`, `chatStore.ts:317-319`):
    `msgs.filter(m => seen.has(m.id) ? false : (seen.add(m.id), true))`. -/
def dedupByIdAux (seen : List String) : List Message → List Message
  | [] => []
  | m :: ms =>
      if m.id ∈ seen then dedupByIdAux seen ms
      else m :: dedupByIdAux (m.id :: seen) ms

/-- Entry point of the dedup filter with an empty seen set. -/
def dedupById (ms : List Message) : List Message := dedupByIdAux [] ms

/-- The synchronous part of `setActiveChat` (`chatStore.ts:56`): switch the
    active chat id and reset the session fields before the initial page
    fetch.  Note it does not touch `isLoading` or `isLoadingMore`. -/
def setActiveChatBegin (st : StoreState) (id : String) : StoreState :=
  { st with activeChatId := some id, messages := [], streamingMessage := "",
            activeTools := [], hasMoreMessages := true }

/-- The completion of the background refresh issued at the end of
    `sendMessage` (`chatStore.ts:307-333`), applied to whatever store state
    is current when the response arrives.  A failed or non-ok fetch is
    `none`: the `catch` ignores it (lines 330-332).  On success the message
    window and `hasMoreMessages` are overwritten from the response, after
    the dedup filter; there is no check that `activeChatId` still equals the
    chat the request was issued for.  (The per-tool-call field coercions of
    lines 320-327 preserve ids, order and count and are identities on
    well-typed payloads; they are not modelled since no claim concerns the
    tool calls of fetched messages.) -/
def reconcileComplete (st : StoreState) (resp : Option PageResponse) : StoreState :=
  match resp with
  | none => st
  | some d =>
      let fresh := d.messages
      let hasMore := d.has_more.getD (decide (fresh.length ≥ 10))
      { st with messages := dedupById fresh, hasMoreMessages := hasMore }

/-- The synchronous prefix of `loadMoreMessages` (`chatStore.ts:342-356`):
    the concurrency / exhaustion / no-chat guard (`!activeChatId ||
    !hasMoreMessages || isLoadingMore` returns immediately), raising
    `isLoadingMore`, and computing the `before` cursor from the oldest
    loaded message (`oldestMsg?.id ? before=... : no cursor`).  `none` means
    the call returned without issuing a request; otherwise the updated state
    and the optional cursor of the issued request are returned. -/
def loadMoreBegin (st : StoreState) : Option (StoreState × Option String) :=
  if !(jsTruthy st.activeChatId) || !st.hasMoreMessages || st.isLoadingMore then
    none
  else
    let oldestId := st.messages.head?.map (fun m => m.id)
    some ({ st with isLoadingMore := true },
          if jsTruthy oldestId then oldestId else none)

/-- The completion of a `loadMoreMessages` fetch (`chatStore.ts:358-382`),
    applied to whatever store state is current when the response arrives.
    A non-ok or failed fetch is `none` (the throw lands in the `catch`,
    which only clears `isLoadingMore`).  An empty page permanently clears
    `hasMoreMessages`; otherwise already-present ids are dropped and the
    remainder is prepended.  As in `reconcileComplete`, no identity check
    against the current `activeChatId` guards the write. -/
def loadMoreComplete (st : StoreState) (resp : Option PageResponse) : StoreState :=
  match resp with
  | none => { st with isLoadingMore := false }
  | some d =>
      let olderMessages := d.messages
      let hasMore := d.has_more.getD (decide (olderMessages.length ≥ 10))
      if olderMessages.length = 0 then
        { st with hasMoreMessages := false, isLoadingMore := false }
      else
        let existingIds := st.messages.map (fun m => m.id)
        let newOnes := olderMessages.filter (fun m => !(existingIds.contains m.id))
        { st with messages := newOnes ++ st.messages,
                  hasMoreMessages := hasMore, isLoadingMore := false }

/-- Lexicographic code-point comparison of character lists, used to compare
    ISO-8601 `created_at` timestamps (on such strings, lexicographic order
    agrees with chronological order). -/
def charListLEb : List Char → List Char → Bool
  | [], _ => true
  | _ :: _, [] => false
  | a :: as, b :: bs =>
      if a.toNat < b.toNat then true
      else if b.toNat < a.toNat then false
      else charListLEb as bs

/-- Timestamp order on strings (lexicographic by code point). -/
def strLE (a b : String) : Prop := charListLEb a.data b.data = true

instance (a b : String) : Decidable (strLE a b) :=
  inferInstanceAs (Decidable (charListLEb a.data b.data = true))

/-- A message window is chronologically ordered when every earlier message
    has a `created_at` no later than every later one. -/
def chronOrdered (ms : List Message) : Prop :=
  ms.Pairwise (fun a b => strLE a.created_at b.created_at)

instance (ms : List Message) : Decidable (chronOrdered ms) :=
  inferInstanceAs (Decidable (ms.Pairwise _))

/-- Shorthand for a well-formed token frame carrying content `c`. -/
def tokenLine (c : String) : FrameLine := FrameLine.event (Parsed.token (some c))

/-- Concatenation of a list of strings in order. -/
def concatList : List String → String
  | [] => ""
  | c :: cs => c ++ concatList cs

/-- A quiescent store with one active chat and nothing loaded, used as a
    concrete base state in witnesses and counterexamples. -/
def st0 : StoreState :=
  { chats := [], activeChatId := some "chat-1", messages := [], isLoading := false,
    streamingMessage := "", activeTools := [], hasMoreMessages := true,
    isLoadingMore := false }

/-- The stream-loop state over `st0` before any frame arrived. -/
def ss0 : StreamState :=
  { store := st0, hasReceivedFirstToken := false, pendingToolMeta := [] }

/-- A stream-loop state in which the same tool name was started twice and
    neither start has been matched by an end yet. -/
def ssTwo : StreamState :=
  { store := { st0 with activeTools :=
      [{ name := "search", status := .started, citations := none },
       { name := "search", status := .started, citations := none }] },
    hasReceivedFirstToken := true, pendingToolMeta := [] }

/-- A loaded window message with id m2, created second. -/
def mW : Message := { id := "m2", role := "user", content := "w", tool_calls := [],
                      created_at := "2024-01-02" }

/-- A server page message with id m1 but a later timestamp than `mW`. -/
def mP : Message := { id := "m1", role := "user", content := "p", tool_calls := [],
                      created_at := "2024-01-03" }

/-- A store with window `[mW]` and a pagination fetch in flight. -/
def stW : StoreState := { st0 with messages := [mW], isLoadingMore := true }

/-- A store whose pagination has been exhausted (`hasMoreMessages = false`). -/
def stNoMore : StoreState := { st0 with hasMoreMessages := false }

/-- A concrete optimistic user message. -/
def uMsg : Message := { id := "u1", role := "user", content := "hi", tool_calls := [],
                        created_at := "2024-01-01" }

/-- A message of chat A loaded in its window. -/
def msgA : Message := { id := "a1", role := "assistant", content := "hello from A",
                        tool_calls := [], created_at := "2024-01-01" }

/-- A store currently showing chat A with one loaded message. -/
def stA : StoreState := { st0 with activeChatId := some "chat-A", messages := [msgA] }

/-- An older server-page message (first of a well-formed page). -/
def mP5 : Message := { id := "p5", role := "user", content := "five", tool_calls := [],
                       created_at := "2024-01-05" }

/-- An older server-page message (second of a well-formed page). -/
def mP6 : Message := { id := "p6", role := "assistant", content := "six",
                       tool_calls := [], created_at := "2024-01-06" }

/-- A store with a chronologically later window message and a pagination
    fetch in flight, used to exercise a well-formed merge. -/
def stW8 : StoreState :=
  { st0 with
      messages := [{ id := "p8", role := "user", content := "eight",
                     tool_calls := [], created_at := "2024-01-08" }],
      isLoadingMore := true }

theorem concatList_append (l1 l2 : List String) :
    concatList (l1 ++ l2) = concatList l1 ++ concatList l2 := by
  induction l1 with
  | nil => simp [concatList]
  | cons c cs ih => simp [concatList, ih, String.append_assoc]

/-- Whether a line breaks the inner loop depends only on the line, not on
    the current state. -/
theorem handleLine_breaks (l : FrameLine) (ss : StreamState) :
    (handleLine l ss).2 = breaksChunk l := by
  cases l with
  | notData => rfl
  | emptyPayload => rfl
  | doneSentinel => rfl
  | raw d => simp [handleLine, breaksChunk]
  | event e =>
      cases e <;> simp [handleLine, dispatchParsed, breaksChunk] <;> split <;> rfl

/-- Closed form of one token frame: the content is appended to the buffer,
    the first-token flag is raised, the pending indicator is cleared on the
    first token, and nothing else changes. -/
theorem handleLine_tokenLine (c : String) (ss : StreamState) :
    handleLine (tokenLine c) ss
      = ({ ss with
            hasReceivedFirstToken := true,
            store := { ss.store with
              streamingMessage := ss.store.streamingMessage ++ c,
              isLoading := if ss.hasReceivedFirstToken then ss.store.isLoading
                else false } }, false) := by
  by_cases h : ss.hasReceivedFirstToken <;>
    simp [handleLine, dispatchParsed, tokenLine, h]

/-- Running a list of token frames appends the concatenation of their
    contents to the buffer, never breaks, and leaves the message window and
    the tool list unchanged. -/
theorem processLines_tokens (cs : List String) (ss : StreamState) :
    (processLines (cs.map tokenLine) ss).1.store.streamingMessage
        = ss.store.streamingMessage ++ concatList cs
    ∧ (processLines (cs.map tokenLine) ss).1.store.messages = ss.store.messages
    ∧ (processLines (cs.map tokenLine) ss).1.store.activeTools = ss.store.activeTools
    ∧ (processLines (cs.map tokenLine) ss).2 = false := by
  induction cs generalizing ss with
  | nil => simp [processLines, concatList]
  | cons c cs ih =>
      have h := handleLine_tokenLine c ss
      simp only [List.map_cons, processLines, h]
      have := ih ({ ss with
        hasReceivedFirstToken := true,
        store := { ss.store with
          streamingMessage := ss.store.streamingMessage ++ c,
          isLoading := if ss.hasReceivedFirstToken then ss.store.isLoading
            else false } })
      simpa [concatList, String.append_assoc] using this

/-- Chunk-level version of `processLines_tokens` for a stream that consists
    solely of token frames, arbitrarily split into chunks. -/
theorem processChunks_tokens (chs : List (List String)) (ss : StreamState) :
    (processChunks (chs.map (fun c => c.map tokenLine)) ss).store.streamingMessage
        = ss.store.streamingMessage ++ concatList (chs.map concatList)
    ∧ (processChunks (chs.map (fun c => c.map tokenLine)) ss).store.messages
        = ss.store.messages
    ∧ (processChunks (chs.map (fun c => c.map tokenLine)) ss).store.activeTools
        = ss.store.activeTools := by
  induction chs generalizing ss with
  | nil => simp [processChunks, concatList]
  | cons c chs ih =>
      obtain ⟨h1, h2, h3, _⟩ := processLines_tokens c ss
      obtain ⟨g1, g2, g3⟩ := ih (processLines (c.map tokenLine) ss).1
      refine ⟨?_, ?_, ?_⟩
      · simp only [List.map_cons, processChunks, g1, h1, concatList,
          String.append_assoc]
      · simp only [List.map_cons, processChunks, g2, h2]
      · simp only [List.map_cons, processChunks, g3, h3]

/-- C4: for every turn whose stream yields exactly the token events with
    contents c₁ … cₙ in order (split into chunks arbitrarily, with no error
    or malformed frames), the assistant message appended when the turn
    terminates carries exactly the concatenation c₁‖…‖cₙ in arrival order
    (and an empty tool list), after the optimistic user message. -/
theorem c4_final_content_is_token_concat (st : StoreState) (u : Message)
    (chs : List (List String)) (aiId aiCreatedAt : String) :
    (finishTurn (processChunks (chs.map (fun c => c.map tokenLine))
        (startTurn st u)) aiId aiCreatedAt).messages
      = (st.messages ++ [u]) ++
        [{ id := aiId, role := "assistant",
           content := concatList (chs.map concatList), tool_calls := [],
           created_at := aiCreatedAt }] := by
  obtain ⟨h1, h2, h3⟩ := processChunks_tokens chs (startTurn st u)
  simp only [finishTurn, h1, h2, h3]
  simp [startTurn]

/-- C7: a decoded frame whose payload fails to parse as JSON appends the
    payload text verbatim to the streaming buffer, raises no error (the
    dispatcher is a total function on such frames), and processing continues
    with the remaining frames of the chunk; as for a first token, the
    pending indicator is cleared if it was still set. -/
theorem c7_malformed_payload_appended_verbatim (p : String) (rest : List FrameLine)
    (ss : StreamState) :
    processLines (FrameLine.raw p :: rest) ss
      = processLines rest { ss with
          hasReceivedFirstToken := true,
          store := { ss.store with
            streamingMessage := ss.store.streamingMessage ++ p,
            isLoading := if ss.hasReceivedFirstToken then ss.store.isLoading
              else false } } := by
  by_cases h : ss.hasReceivedFirstToken <;> simp [processLines, handleLine, h]

/-- C9: a `tool_start` or `tool_end` event whose payload has neither a
    usable `name` nor a usable `tool` field (each absent, null, or the empty
    string) is silently ignored: the stream state, including `activeTools`,
    is returned unchanged and the loop does not break. -/
theorem c9_missing_tool_name_ignored (ss : StreamState) (name tool : Option String)
    (hn : name = none ∨ name = some "") (ht : tool = none ∨ tool = some "") :
    dispatchParsed (.tool_start name tool) ss = (ss, false)
    ∧ dispatchParsed (.tool_end name tool) ss = (ss, false) := by
  rcases hn with h1 | h1 <;> rcases ht with h2 | h2 <;> subst h1 <;> subst h2 <;>
    simp [dispatchParsed, coalesce, jsTruthy]

theorem c9_missing_tool_name_ignored_witness :
    ((none : Option String) = none ∨ (none : Option String) = some "")
    ∧ ((some "" : Option String) = none ∨ (some "" : Option String) = some "")
    ∧ dispatchParsed (.tool_start none (some "")) ss0 = (ss0, false)
    ∧ dispatchParsed (.tool_end none (some "")) ss0 = (ss0, false) :=
  ⟨Or.inl rfl, Or.inr rfl,
   (c9_missing_tool_name_ignored ss0 none (some "") (Or.inl rfl) (Or.inr rfl)).1,
   (c9_missing_tool_name_ignored ss0 none (some "") (Or.inl rfl) (Or.inr rfl)).2⟩

/-- C10: invoking `loadMoreMessages` on an empty loaded window (with an
    active chat, `hasMoreMessages` true and no fetch in flight) is neither a
    failure nor a no-op: it raises `isLoadingMore` and issues the page
    request with no `before` cursor. -/
theorem c10_empty_window_fetches_without_cursor (st : StoreState) (cid : String)
    (h1 : st.activeChatId = some cid) (h2 : cid ≠ "")
    (h3 : st.hasMoreMessages = true) (h4 : st.isLoadingMore = false)
    (h5 : st.messages = []) :
    loadMoreBegin st = some ({ st with isLoadingMore := true }, none) := by
  simp [loadMoreBegin, jsTruthy, h1, h2, h3, h4, h5]

theorem c10_empty_window_fetches_without_cursor_witness :
    st0.activeChatId = some "chat-1" ∧ "chat-1" ≠ ""
    ∧ st0.hasMoreMessages = true ∧ st0.isLoadingMore = false ∧ st0.messages = []
    ∧ loadMoreBegin st0 = some ({ st0 with isLoadingMore := true }, none) :=
  ⟨rfl, by decide, rfl, rfl, rfl,
   c10_empty_window_fetches_without_cursor st0 "chat-1" rfl (by decide) rfl rfl rfl⟩

/-- C1 counterexample: the claim that after a terminal frame every later
    line of the same stream is discarded is false for later chunks.  The
    `break` on the `[DONE]` sentinel only leaves the inner per-chunk loop;
    the outer read loop goes on, and a token frame arriving in the next
    chunk of the same stream is processed: starting from the empty buffer,
    a stream of chunk `[DONE]` followed by chunk `token "after"` ends with
    buffer `after`, whereas stopping at the sentinel leaves it empty. -/
theorem c1_counterexample :
    (processChunks [[FrameLine.doneSentinel],
        [FrameLine.event (Parsed.token (some "after"))]] ss0).store.streamingMessage
      = "after"
    ∧ (processChunks [[FrameLine.doneSentinel]] ss0).store.streamingMessage = "" := by
  exact ⟨rfl, rfl⟩

/-- C1 amended: once a terminal frame (`[DONE]` sentinel, `done` event, or
    `error` event) is processed, the remaining buffered lines of the same
    chunk are discarded unprocessed; frames arriving in later chunks of the
    stream are processed normally. -/
theorem c1_terminal_discards_rest_of_chunk (pre post : List FrameLine) (t : FrameLine)
    (ss : StreamState) (hpre : ∀ l ∈ pre, breaksChunk l = false)
    (ht : breaksChunk t = true) :
    processLines (pre ++ t :: post) ss = processLines (pre ++ [t]) ss := by
  induction pre generalizing ss with
  | nil =>
      have hb : (handleLine t ss).2 = true := (handleLine_breaks t ss).trans ht
      simp [processLines, hb]
  | cons l ls ih =>
      have hl : (handleLine l ss).2 = false :=
        (handleLine_breaks l ss).trans (hpre l (by simp))
      simp only [List.cons_append, processLines, hl, Bool.false_eq_true, if_false]
      exact ih (handleLine l ss).1 (fun x hx => hpre x (List.mem_cons_of_mem _ hx))

theorem c1_terminal_discards_rest_of_chunk_witness :
    (∀ l ∈ [tokenLine "a"], breaksChunk l = false)
    ∧ breaksChunk (FrameLine.event Parsed.done) = true
    ∧ processLines ([tokenLine "a"] ++ FrameLine.event Parsed.done ::
        [tokenLine "b"]) ss0
      = processLines ([tokenLine "a"] ++ [FrameLine.event Parsed.done]) ss0 :=
  ⟨by decide, rfl,
   c1_terminal_discards_rest_of_chunk [tokenLine "a"] [tokenLine "b"]
     (FrameLine.event Parsed.done) ss0 (by decide) rfl⟩

/-- C5 counterexample: when the same tool name has two unmatched `started`
    entries, a single `tool_end` for that name sets both to `completed`, so
    it is false that exactly one entry (the most recently started unmatched
    one, here the second) is updated while all others keep their previous
    status: the first entry changes from `started` to `completed` too. -/
theorem c5_counterexample :
    ssTwo.store.activeTools
      = [{ name := "search", status := .started, citations := none },
         { name := "search", status := .started, citations := none }]
    ∧ (dispatchParsed (.tool_end (some "search") none) ssTwo).1.store.activeTools
      = [{ name := "search", status := .completed, citations := none },
         { name := "search", status := .completed, citations := none }] := by
  exact ⟨rfl, rfl⟩

/-- C5 amended: a `tool_end` event with a usable name sets the status of
    every `activeTools` entry bearing that name to `completed` (entries
    already completed are rewritten to the same status); entries with a
    different name are unchanged, and the loop does not break. -/
theorem c5_tool_end_completes_all_matching (ss : StreamState)
    (name tool : Option String) (h : jsTruthy (coalesce name tool) = true) :
    dispatchParsed (.tool_end name tool) ss
      = ({ ss with store := { ss.store with
            activeTools := ss.store.activeTools.map (fun t =>
              if t.name = (coalesce name tool).getD ""
              then { t with status := .completed } else t) } }, false) := by
  simp [dispatchParsed, h]

theorem c5_tool_end_completes_all_matching_witness :
    jsTruthy (coalesce (some "search") none) = true
    ∧ dispatchParsed (.tool_end (some "search") none) ssTwo
      = ({ ssTwo with store := { ssTwo.store with
            activeTools := ssTwo.store.activeTools.map (fun t =>
              if t.name = (coalesce (some "search") none).getD ""
              then { t with status := .completed } else t) } }, false) :=
  ⟨by decide, c5_tool_end_completes_all_matching ssTwo (some "search") none (by decide)⟩

/-- C8 counterexample: the claim that an `error` event arriving before any
    `token` event makes the final content equal the error content exactly is
    false when a malformed frame preceded the error: the malformed payload
    is appended to the buffer as literal content, and the `error` branch
    keeps a non-empty buffer untouched.  With the stream
    `malformed "x"`, `error "E"` and no token events, the final buffer and
    the content of the appended assistant message are `x`, not `E`. -/
theorem c8_counterexample :
    (processChunks [[FrameLine.raw "x", FrameLine.event (Parsed.error (some "E"))]]
        (startTurn st0 uMsg)).store.streamingMessage = "x"
    ∧ (finishTurn (processChunks
          [[FrameLine.raw "x", FrameLine.event (Parsed.error (some "E"))]]
          (startTurn st0 uMsg)) "ai1" "t1").messages.map (fun m => m.content)
      = ["hi", "x"]
    ∧ "x" ≠ "E" := by
  exact ⟨rfl, rfl, by decide⟩

/-- C8 amended: upon an `error` event with non-empty content, processing of
    the chunk stops at once; the pending indicator is cleared immediately if
    no token (or malformed frame treated as token content) had been
    received; and the buffer — hence the final message content if the error
    ends the stream — is set to exactly the error content when it was empty,
    and is left untouched when partial content (from tokens or malformed
    frames) already exists. -/
theorem c8_error_event_effect (ss : StreamState) (c : String) (hc : c ≠ "") :
    dispatchParsed (.error (some c)) ss
      = ({ ss with store := { ss.store with
            isLoading := if ss.hasReceivedFirstToken then ss.store.isLoading
              else false,
            streamingMessage := if ss.store.streamingMessage = "" then c
              else ss.store.streamingMessage } }, true) := by
  by_cases h : ss.hasReceivedFirstToken <;> simp [dispatchParsed, h, hc]

theorem c8_error_event_effect_witness :
    ("E" : String) ≠ ""
    ∧ dispatchParsed (.error (some "E")) (startTurn st0 uMsg)
      = ({ startTurn st0 uMsg with store := { (startTurn st0 uMsg).store with
            isLoading := if (startTurn st0 uMsg).hasReceivedFirstToken
              then (startTurn st0 uMsg).store.isLoading else false,
            streamingMessage := if (startTurn st0 uMsg).store.streamingMessage = ""
              then "E" else (startTurn st0 uMsg).store.streamingMessage } }, true) :=
  ⟨by decide, c8_error_event_effect (startTurn st0 uMsg) "E" (by decide)⟩

/-- C2 counterexample: the claim that `hasMoreMessages` never transitions
    false→true within one loaded session under any operation is false for
    the post-turn reconciliation: with `hasMoreMessages = false` and no chat
    switch (the active chat id is unchanged), a reconciliation response with
    `has_more: true` sets it back to true. -/
theorem c2_counterexample :
    stNoMore.hasMoreMessages = false
    ∧ (reconcileComplete stNoMore
        (some { messages := [mW], has_more := some true })).hasMoreMessages = true
    ∧ (reconcileComplete stNoMore
        (some { messages := [mW], has_more := some true })).activeChatId
      = stNoMore.activeChatId := by
  exact ⟨rfl, rfl, rfl⟩

/-- C2 amended: under pagination alone `hasMoreMessages` never transitions
    false→true within one loaded session: once it is false,
    `loadMoreMessages` returns without issuing a request, and a pagination
    fetch returning zero messages sets it to false; the post-turn
    reconciliation, however, overwrites it from the server response and can
    set it back to true (see the counterexample). -/
theorem c2_pagination_never_rearms (st : StoreState) (d : PageResponse)
    (h1 : st.hasMoreMessages = false) (h2 : d.messages = []) :
    loadMoreBegin st = none
    ∧ (loadMoreComplete st (some d)).hasMoreMessages = false := by
  constructor
  · simp [loadMoreBegin, h1]
  · simp [loadMoreComplete, h2]

theorem c2_pagination_never_rearms_witness :
    stNoMore.hasMoreMessages = false
    ∧ ({ messages := [], has_more := some true } : PageResponse).messages = []
    ∧ loadMoreBegin stNoMore = none
    ∧ (loadMoreComplete stNoMore
        (some { messages := [], has_more := some true })).hasMoreMessages = false :=
  ⟨rfl, rfl,
   (c2_pagination_never_rearms stNoMore { messages := [], has_more := some true }
     rfl rfl).1,
   (c2_pagination_never_rearms stNoMore { messages := [], has_more := some true }
     rfl rfl).2⟩

/-- C3: evaluation of the stale-response path at the failing input.  A
    pagination fetch for chat A (cursor a1) is in flight when the user
    switches to chat B, which resets the window to `[]`; when the stale
    response for chat A then completes, `loadMoreComplete` writes it into
    the store without any identity check against the current chat id: the
    window of the now-current chat B becomes `[mP]` (a chat-A message)
    instead of staying `[]`.  The reconciliation completion behaves the same
    way.  This contradicts the claimed (and specified) guard. -/
theorem c3_stale_response_overwrites :
    loadMoreBegin stA = some ({ stA with isLoadingMore := true }, some "a1")
    ∧ (setActiveChatBegin { stA with isLoadingMore := true } "chat-B").messages = []
    ∧ (loadMoreComplete (setActiveChatBegin { stA with isLoadingMore := true } "chat-B")
        (some { messages := [mP], has_more := some true })).activeChatId
      = some "chat-B"
    ∧ (loadMoreComplete (setActiveChatBegin { stA with isLoadingMore := true } "chat-B")
        (some { messages := [mP], has_more := some true })).messages = [mP]
    ∧ (reconcileComplete (setActiveChatBegin stA "chat-B")
        (some { messages := [mP], has_more := some true })).messages = [mP] := by
  exact ⟨rfl, rfl, rfl, rfl, rfl⟩

/-- C6 counterexample: the claim that after any pagination merge the window
    has no duplicate ids and is fully chronologically ordered is false when
    the returned page itself is degenerate: merging the page `[mP, mP]`
    (internal duplicate id m1, timestamp later than the window message m2)
    into the window `[mW]` yields ids `[m1, m1, m2]` — a duplicate — and a
    window that is not chronologically ordered. -/
theorem c6_counterexample :
    ((loadMoreComplete stW
        (some { messages := [mP, mP], has_more := none })).messages.map
          (fun m => m.id)) = ["m1", "m1", "m2"]
    ∧ ¬ ((loadMoreComplete stW
        (some { messages := [mP, mP], has_more := none })).messages.map
          (fun m => m.id)).Nodup
    ∧ ¬ chronOrdered (loadMoreComplete stW
        (some { messages := [mP, mP], has_more := none })).messages := by
  exact ⟨rfl, by decide, by decide⟩

/-- C6 amended: for every non-empty page merged by the pagination loader,
    returned messages whose id is already in the window are dropped and the
    remainder is prepended in returned order; and provided the page itself
    has no internal duplicate ids, the window has none, both are
    chronologically ordered, and every page message is no later than every
    window message, the merged window has no duplicate ids and is
    chronologically ordered. -/
theorem c6_merge_dedups_and_orders (st : StoreState) (d : PageResponse)
    (hne : d.messages ≠ [])
    (hw : (st.messages.map (fun m => m.id)).Nodup)
    (hp : (d.messages.map (fun m => m.id)).Nodup)
    (hcw : chronOrdered st.messages)
    (hcp : chronOrdered d.messages)
    (hle : ∀ p ∈ d.messages, ∀ w ∈ st.messages, strLE p.created_at w.created_at) :
    (loadMoreComplete st (some d)).messages
      = d.messages.filter
          (fun m => !((st.messages.map (fun m => m.id)).contains m.id))
        ++ st.messages
    ∧ ((loadMoreComplete st (some d)).messages.map (fun m => m.id)).Nodup
    ∧ chronOrdered (loadMoreComplete st (some d)).messages := by
  have hlen : ¬ d.messages.length = 0 := by
    simpa using hne
  have hmsg : (loadMoreComplete st (some d)).messages
      = d.messages.filter
          (fun m => !((st.messages.map (fun m => m.id)).contains m.id))
        ++ st.messages := by
    simp [loadMoreComplete, hlen]
  refine ⟨hmsg, ?_, ?_⟩
  · rw [hmsg, List.map_append, List.nodup_append]
    refine ⟨?_, hw, ?_⟩
    · exact hp.sublist ((List.filter_sublist _).map _)
    · intro x hx1 hx2
      obtain ⟨m, hm, rfl⟩ := List.mem_map.1 hx1
      obtain ⟨w, hw, heq⟩ := List.mem_map.1 hx2
      have hpred := (List.mem_filter.1 hm).2
      simp at hpred
      exact hpred w hw heq
  · rw [hmsg]
    unfold chronOrdered
    rw [List.pairwise_append]
    refine ⟨hcp.sublist (List.filter_sublist _), hcw, ?_⟩
    intro a ha b hb
    exact hle a (List.mem_of_mem_filter ha) b hb

theorem c6_merge_dedups_and_orders_witness :
    (({ messages := [mP5, mP6], has_more := some false } : PageResponse).messages ≠ [])
    ∧ (stW8.messages.map (fun m => m.id)).Nodup
    ∧ (([mP5, mP6] : List Message).map (fun m => m.id)).Nodup
    ∧ chronOrdered stW8.messages
    ∧ chronOrdered [mP5, mP6]
    ∧ (∀ p ∈ ([mP5, mP6] : List Message), ∀ w ∈ stW8.messages,
        strLE p.created_at w.created_at)
    ∧ (loadMoreComplete stW8
        (some { messages := [mP5, mP6], has_more := some false })).messages
      = ([mP5, mP6] : List Message).filter
          (fun m => !((stW8.messages.map (fun m => m.id)).contains m.id))
        ++ stW8.messages
    ∧ ((loadMoreComplete stW8
        (some { messages := [mP5, mP6], has_more := some false })).messages.map
          (fun m => m.id)).Nodup
    ∧ chronOrdered (loadMoreComplete stW8
        (some { messages := [mP5, mP6], has_more := some false })).messages := by
  have h := c6_merge_dedups_and_orders stW8
    { messages := [mP5, mP6], has_more := some false }
    (by decide) (by decide) (by decide) (by decide) (by decide) (by decide)
  exact ⟨by decide, by decide, by decide, by decide, by decide, by decide,
    h.1, h.2.1, h.2.2⟩

end ChatStore
